import Mathlib

/-!
Shallow embedding of the labyrinth maze game (image-decoded maze, player
traversal with a visited-cell set, camera-follow viewport, fog-of-war
rendering, and per-level progress persistence).

Modelling conventions, each justified against the JavaScript source:

* The game keys its wall set and visited set by the string template
  literal of the coordinates, the digits of x, a comma, then the digits
  of y.  That encoding is a bijection between integer pairs and the key
  strings (neither decimal rendering contains a comma), so we model the
  key type as the pair `Cell := Int × Int` itself, with the same
  equality semantics.
* JavaScript numbers are mathematical integers on every path modelled
  here (pixel coordinates, player coordinates, move deltas), so `Int`
  and `Nat` are used directly.
* Canvas `ImageData` is a flat RGBA byte array of length
  `width*height*4`; `Image.data` mirrors it as a flat list read with the
  same index arithmetic `(y*width + x) * 4`.  The alpha byte is read by
  nobody, exactly as in the source.
* Fallible operations (`parseMazeFromImage`) return `Except String`,
  the error string being the message of the thrown `Error`.
-/

namespace Labyrinth

/-- A grid cell.  The source stores cells in JavaScript `Set`s keyed by
the string rendering of the pair; we use the pair itself (see module
comment). -/
abbrev Cell := Int × Int

/-- A loaded bitmap: dimensions plus the flat RGBA sample list, exactly
the shape of the canvas `ImageData` the decoder reads. -/
structure Image where
  width : Nat
  height : Nat
  data : List Nat
deriving DecidableEq

/-- COLOR_MAP.WALL, the reserved wall color (black). -/
def COLOR_WALL : Nat × Nat × Nat := (0, 0, 0)

/-- COLOR_MAP.START, the reserved start color (blue). -/
def COLOR_START : Nat × Nat × Nat := (0, 0, 255)

/-- COLOR_MAP.GOAL, the reserved goal color (red). -/
def COLOR_GOAL : Nat × Nat × Nat := (255, 0, 0)

/-- The RGB triple of the pixel at (x, y): entries `(y*width+x)*4`,
`+1`, `+2` of the flat RGBA data, as read in `parseMazeFromImage`. -/
def pixelAt (img : Image) (x y : Nat) : Nat × Nat × Nat :=
  (img.data.getD ((y * img.width + x) * 4) 0,
   img.data.getD ((y * img.width + x) * 4 + 1) 0,
   img.data.getD ((y * img.width + x) * 4 + 2) 0)

/-- Pixel coordinates (naturals) viewed as a `Cell`. -/
def toCellI (p : Nat × Nat) : Cell := ((p.1 : Int), (p.2 : Int))

/-- JavaScript `Set` semantics over cells: a `Set` is modelled as its
insertion-ordered, duplicate-free element list; `add` appends the
element when it is not yet present and is a no-op otherwise. -/
def setAdd (s : List Cell) (c : Cell) : List Cell :=
  if c ∈ s then s else s ++ [c]

/-- `new Set(iterable)`: insert the elements in iteration order into a
fresh empty set. -/
def setOfList (l : List Cell) : List Cell :=
  l.foldl setAdd []

/-- Whether the pixel of `img` at position `p` has exactly the RGB
triple `c` (the source compares the string key built from r, g, b
against the color table; string equality of those keys is RGB-tuple
equality). -/
def isColorAt (img : Image) (p : Nat × Nat) (c : Nat × Nat × Nat) : Bool :=
  decide (pixelAt img p.1 p.2 = c)

/-- Row-major scan order of the decoder's nested loops: `y` outer from
0 to height-1, `x` inner from 0 to width-1. -/
def scanOrder (width height : Nat) : List (Nat × Nat) :=
  (List.range height).flatMap (fun y => (List.range width).map (fun x => (x, y)))

/-- The decoder's mutable scan accumulators: the `walls` array and the
`start` and `goal` variables (initially `null`). -/
structure ScanState where
  walls : List Cell
  start : Option Cell
  goal : Option Cell
deriving DecidableEq

/-- One iteration body of the decoder's pixel loop: exact-match the RGB
triple against WALL, then START, then GOAL; push wall cells, overwrite
`start`/`goal`, ignore every other color. -/
def classifyPixel (st : ScanState) (rgb : Nat × Nat × Nat) (c : Cell) : ScanState :=
  if rgb = COLOR_WALL then ScanState.mk (st.walls ++ [c]) st.start st.goal
  else if rgb = COLOR_START then ScanState.mk st.walls (some c) st.goal
  else if rgb = COLOR_GOAL then ScanState.mk st.walls st.start (some c)
  else st

/-- The loop body applied to the pixel at scan position `p`. -/
def scanStep (img : Image) (st : ScanState) (p : Nat × Nat) : ScanState :=
  classifyPixel st (pixelAt img p.1 p.2) (toCellI p)

/-- The whole pixel scan of `parseMazeFromImage`. -/
def scanImage (img : Image) : ScanState :=
  (scanOrder img.width img.height).foldl (scanStep img) (ScanState.mk [] none none)

/-- The decoded maze data object `{ width, height, start, goal, walls }`. -/
structure MazeDescriptor where
  width : Nat
  height : Nat
  start : Cell
  goal : Cell
  walls : List Cell
deriving DecidableEq

/-- The message of the `Error` thrown when the scan ends with `start`
or `goal` still `null` (it interpolates the image URL and names both
landmark colors, whichever is missing). -/
def missingLandmarkMessage (imageUrl : String) : String :=
  "迷路画像 " ++ imageUrl ++ " のスタート(青: 0,0,255)またはゴール(赤: 255,0,0)が見つかりませんでした。"

/-- `parseMazeFromImage` on an already-loaded image: scan all pixels,
then either reject with the missing-landmark message (when `start` or
`goal` was never assigned) or resolve the descriptor. -/
def parseMazeFromImage (img : Image) (imageUrl : String) : Except String MazeDescriptor :=
  match (scanImage img).start, (scanImage img).goal with
  | some s, some g =>
      Except.ok (MazeDescriptor.mk img.width img.height s g (scanImage img).walls)
  | some _, none => Except.error (missingLandmarkMessage imageUrl)
  | none, _ => Except.error (missingLandmarkMessage imageUrl)

/-- The `Maze` class: the descriptor with the wall list converted to a
set (`new Set`, string-keyed in the source, see module comment). -/
structure Maze where
  width : Nat
  height : Nat
  start : Cell
  goal : Cell
  walls : List Cell
deriving DecidableEq

/-- The `Maze` constructor applied to decoded data: the wall array is
poured into a fresh set with `forEach`/`add`. -/
def Maze.ofDescriptor (d : MazeDescriptor) : Maze :=
  Maze.mk d.width d.height d.start d.goal (setOfList d.walls)

/-- `Maze.isWall`: pure membership of the key in the wall set, with no
bounds check. -/
def Maze.isWall (m : Maze) (x y : Int) : Bool :=
  decide ((x, y) ∈ m.walls)

/-- `Maze.isValidMove`: in-bounds on both axes and not a wall. -/
def Maze.isValidMove (m : Maze) (x y : Int) : Bool :=
  decide (0 ≤ x) && decide (x < (m.width : Int)) && decide (0 ≤ y) &&
    decide (y < (m.height : Int)) && !(m.isWall x y)

/-- The `Player` class state: coordinates plus the visited-cell set. -/
structure Player where
  x : Int
  y : Int
  visitedCells : List Cell
deriving DecidableEq

/-- `Player.markVisited`: add the current position to the visited set. -/
def Player.markVisited (p : Player) : Player :=
  Player.mk p.x p.y (setAdd p.visitedCells (p.x, p.y))

/-- The `Player` constructor: set the coordinates, start from an empty
visited set, then `markVisited` the initial position. -/
def Player.new (startX startY : Int) : Player :=
  Player.markVisited (Player.mk startX startY [])

/-- `Player.hasVisited`. -/
def Player.hasVisited (p : Player) (x y : Int) : Bool :=
  decide ((x, y) ∈ p.visitedCells)

/-- `Player.move`: compute the candidate cell; if it is not a wall,
commit the new position, mark it visited and return true, otherwise
leave the state alone and return false.  The in-place mutation is
modelled by returning the next state next to the boolean result. -/
def Player.move (p : Player) (dx dy : Int) (m : Maze) : Player × Bool :=
  let newX := p.x + dx
  let newY := p.y + dy
  if !(m.isWall newX newY) then
    (Player.markVisited (Player.mk newX newY p.visitedCells), true)
  else
    (p, false)

/-- `Player.isAtGoal`. -/
def Player.isAtGoal (p : Player) (m : Maze) : Bool :=
  decide (p.x = m.goal.1) && decide (p.y = m.goal.2)

/-- A whole sequence of `move` calls, keeping only the evolving player
state (each call's boolean result is consumed by the caller). -/
def applyMoves (m : Maze) (p : Player) (ms : List (Int × Int)) : Player :=
  ms.foldl (fun q d => (Player.move q d.1 d.2 m).1) p

/-- CONTAINER_SIZE: fixed square canvas side in pixels. -/
def CONTAINER_SIZE : Nat := 500

/-- MIN_CELL_SIZE. -/
def MIN_CELL_SIZE : Nat := 20

/-- MAX_VISIBLE_CELLS: the visible cell budget V per axis. -/
def MAX_VISIBLE_CELLS : Nat := 25

/-- HALF_VIEW = Math.floor(MAX_VISIBLE_CELLS / 2) = 12. -/
def HALF_VIEW : Nat := MAX_VISIBLE_CELLS / 2

/-- viewRange: the spotlight radius used by `renderMaze` (3×3). -/
def viewRange : Nat := 1

/-- The camera-follow origin of one axis in `renderMaze`: the player's
coordinate minus HALF_VIEW, clamped first below by 0 (`Math.max`), then
above by `axisSize - MAX_VISIBLE_CELLS` (`Math.min`), in that order. -/
def viewPortStart (playerAxis : Int) (axisSize : Nat) : Int :=
  min ((axisSize : Int) - (MAX_VISIBLE_CELLS : Int)) (max 0 (playerAxis - (HALF_VIEW : Int)))

/-- The inclusive cell index window ((startX, endX), (startY, endY))
computed at the top of `renderMaze`: the whole maze when both dimensions
fit within MAX_VISIBLE_CELLS, otherwise the camera-follow window of
MAX_VISIBLE_CELLS cells per axis from the clamped origin. -/
def mazeWindow (m : Maze) (p : Player) : (Int × Int) × (Int × Int) :=
  if m.width ≤ MAX_VISIBLE_CELLS ∧ m.height ≤ MAX_VISIBLE_CELLS then
    ((0, (m.width : Int) - 1), (0, (m.height : Int) - 1))
  else
    ((viewPortStart p.x m.width, viewPortStart p.x m.width + (MAX_VISIBLE_CELLS : Int) - 1),
     (viewPortStart p.y m.height, viewPortStart p.y m.height + (MAX_VISIBLE_CELLS : Int) - 1))

/-- The spotlight test of `renderMaze`: `Math.abs(x - player.x) <=
viewRange && Math.abs(y - player.y) <= viewRange`. -/
def isInView (p : Player) (x y : Int) : Bool :=
  decide ((x - p.x).natAbs ≤ viewRange) && decide ((y - p.y).natAbs ≤ viewRange)

/-- The inclusive integer range visited by a `for (let i = s; i <= e;
i++)` loop. -/
def renderRange (s e : Int) : List Int :=
  (List.range (e - s + 1).toNat).map (fun i => s + Int.ofNat i)

/-- The cells for which `renderMaze`'s main loop executes a fill: the
window ranges, the in-grid guard (`continue` on out-of-maze indices),
then the `isInView || hasVisited` visibility test.  Cells failing any
of these are not drawn. -/
def drawnCells (m : Maze) (p : Player) : List Cell :=
  (renderRange (mazeWindow m p).2.1 (mazeWindow m p).2.2).flatMap (fun y =>
    (renderRange (mazeWindow m p).1.1 (mazeWindow m p).1.2).filterMap (fun x =>
      if x < 0 ∨ (m.width : Int) ≤ x ∨ y < 0 ∨ (m.height : Int) ≤ y then none
      else if isInView p x y || p.hasVisited x y then some (x, y) else none))

/-- One entry of the persisted progress mapping:
`{ completed: true, path: [...] }`. -/
structure LevelProgress where
  completed : Bool
  path : List Cell
deriving DecidableEq

/-- `GameState.completeLevel`: store `completed: true` together with
`Array.from(pathSet)` under the level key (`Array.from` of a `Set`
lists its elements in insertion order, which is exactly the carrier
list of the set model). -/
def GameState.completeLevel (progress : Nat → Option LevelProgress) (level : Nat)
    (pathSet : List Cell) : Nat → Option LevelProgress :=
  fun l => if l = level then some (LevelProgress.mk true pathSet) else progress l

/-- `GameState.getCompletedPath`: rebuild the set (`new Set(path)`)
from the stored array, or the empty set when the level has no entry. -/
def GameState.getCompletedPath (progress : Nat → Option LevelProgress) (level : Nat) :
    List Cell :=
  match progress level with
  | some lp => setOfList lp.path
  | none => []

/-- The `MazeGame` controller state touched by `startLevel`:
`gameState.currentLevel`, `gameState.maxLevel`,
`gameState.currentScreen`, the `maze` and `player` references (null
before the first successful load) and the `parsedMazes` decode cache.
Canvas/DOM handles carry no game state and are omitted. -/
structure MazeGame where
  currentLevel : Nat
  maxLevel : Nat
  maze : Option Maze
  player : Option Player
  parsedMazes : Nat → Option MazeDescriptor
  currentScreen : String

/-- `showScreen`: record the active screen name. -/
def MazeGame.showScreen (g : MazeGame) (screenName : String) : MazeGame :=
  MazeGame.mk g.currentLevel g.maxLevel g.maze g.player g.parsedMazes screenName

/-- `showLevelSelect`: with no levels detected it only alerts and
returns; otherwise it switches to the level-select screen. -/
def MazeGame.showLevelSelect (g : MazeGame) : MazeGame :=
  if g.maxLevel = 0 then g else g.showScreen ("level-select")

/-- The successful tail of `startLevel`: build the `Maze`, build the
`Player` at the maze's start cell, and show the game screen. -/
def MazeGame.commitLevel (g : MazeGame) (d : MazeDescriptor) : MazeGame :=
  let m := Maze.ofDescriptor d
  MazeGame.mk g.currentLevel g.maxLevel (some m) (some (Player.new m.start.1 m.start.2))
    g.parsedMazes ("game")

/-- `startLevel`.  The guard rejects levels above `maxLevel`; then
`currentLevel` is set, the decode cache is consulted, and on a miss the
awaited `parseMazeFromImage` outcome — passed here as the `fetched`
argument, since image loading is I/O — either fills the cache and
commits, or is caught: the `catch` block alerts and calls
`showLevelSelect`, so the error never escapes this function. -/
def MazeGame.startLevel (g : MazeGame) (level : Nat)
    (fetched : Except String MazeDescriptor) : MazeGame :=
  if g.maxLevel < level then g
  else
    let g1 := MazeGame.mk level g.maxLevel g.maze g.player g.parsedMazes g.currentScreen
    match g1.parsedMazes level with
    | some d => g1.commitLevel d
    | none =>
        match fetched with
        | Except.ok d =>
            MazeGame.commitLevel
              (MazeGame.mk g1.currentLevel g1.maxLevel g1.maze g1.player
                (fun l => if l = level then some d else g1.parsedMazes l) g1.currentScreen) d
        | Except.error _ => g1.showLevelSelect

/-- Concrete 2×2 image: two blue pixels (duplicate start markers), one
red pixel, one black pixel, row-major RGBA. -/
def imgTwo : Image :=
  Image.mk 2 2 [0, 0, 255, 255, 0, 0, 255, 255, 255, 0, 0, 255, 0, 0, 0, 255]

/-- Concrete 1×1 image holding a single blue (start) pixel. -/
def imgOnlyStart : Image := Image.mk 1 1 [0, 0, 255, 255]

/-- Concrete 1×1 image holding a single red (goal) pixel. -/
def imgOnlyGoal : Image := Image.mk 1 1 [255, 0, 0, 255]

/-- The descriptor `parseMazeFromImage` produces for `imgTwo`. -/
def descTwo : MazeDescriptor :=
  MazeDescriptor.mk 2 2 ((1 : Int), (0 : Int)) ((0 : Int), (1 : Int)) [((1 : Int), (1 : Int))]

/-- Concrete 26×1 maze (wider than the visible budget) with no walls. -/
def mazeCex : Maze := Maze.mk 26 1 (0, 0) (25, 0) []

/-- Concrete player at (25, 0) who has visited (0, 0) and (25, 0). -/
def playerCex : Player :=
  Player.mk 25 0 [((0 : Int), (0 : Int)), ((25 : Int), (0 : Int))]

/-- Concrete 3×3 maze whose only wall is at (0, 1). -/
def mazeSmall : Maze := Maze.mk 3 3 (1, 1) (2, 2) [((0 : Int), (1 : Int))]

/-- Concrete player freshly constructed at (1, 1). -/
def playerSmall : Player := Player.new 1 1

/-- Concrete controller state on the title screen with one known level
and an empty decode cache. -/
def gameInit : MazeGame := MazeGame.mk 1 1 none none (fun _ => none) ("title")


/-! ### Helper lemmas about the pixel scan -/

theorem toCellI_inj (a b : Nat × Nat) (h : toCellI a = toCellI b) : a = b := by
  obtain ⟨a1, a2⟩ := a
  obtain ⟨b1, b2⟩ := b
  simp only [toCellI, Prod.mk.injEq] at h ⊢
  omega

theorem getLast?_mem {α : Type} (l : List α) (a : α) (h : l.getLast? = some a) : a ∈ l := by
  induction l with
  | nil => simp at h
  | cons x xs ih =>
    cases xs with
    | nil =>
      simp only [List.getLast?_singleton, Option.some.injEq] at h
      simp [h]
    | cons y ys =>
      rw [List.getLast?_cons_cons] at h
      exact List.mem_cons_of_mem x (ih h)

theorem getLast?_or_cons {α : Type} (l : List α) (x : α) (o : Option α) :
    Option.or l.getLast? (some x) = Option.or ((x :: l).getLast?) o := by
  cases l with
  | nil => simp [List.getLast?_singleton, Option.or]
  | cons y ys =>
    rw [List.getLast?_cons_cons]
    obtain ⟨v, hv⟩ : ∃ v, (y :: ys).getLast? = some v := by
      induction ys generalizing y with
      | nil => exact ⟨y, rfl⟩
      | cons z zs ih =>
        obtain ⟨v, hv⟩ := ih z
        exact ⟨v, by rw [List.getLast?_cons_cons]; exact hv⟩
    rw [hv]
    simp [Option.or]

theorem scanStep_walls (img : Image) (st : ScanState) (p : Nat × Nat) :
    (scanStep img st p).walls =
      if isColorAt img p COLOR_WALL then st.walls ++ [toCellI p] else st.walls := by
  simp only [scanStep, classifyPixel, isColorAt]
  split_ifs <;> simp_all

theorem scanStep_start (img : Image) (st : ScanState) (p : Nat × Nat) :
    (scanStep img st p).start =
      if isColorAt img p COLOR_START then some (toCellI p) else st.start := by
  simp only [scanStep, classifyPixel, isColorAt]
  by_cases h1 : pixelAt img p.1 p.2 = COLOR_WALL
  · have h2 : pixelAt img p.1 p.2 ≠ COLOR_START := by rw [h1]; decide
    simp [h1, h2, COLOR_WALL, COLOR_START]
    exact (if_neg (by decide)).symm
  · by_cases h2 : pixelAt img p.1 p.2 = COLOR_START
    · simp [h1, h2, COLOR_WALL, COLOR_START]
    · by_cases h3 : pixelAt img p.1 p.2 = COLOR_GOAL
      · simp [h1, h2, h3, COLOR_WALL, COLOR_START, COLOR_GOAL]
      · simp [h1, h2, h3]

theorem scanStep_goal (img : Image) (st : ScanState) (p : Nat × Nat) :
    (scanStep img st p).goal =
      if isColorAt img p COLOR_GOAL then some (toCellI p) else st.goal := by
  simp only [scanStep, classifyPixel, isColorAt]
  by_cases h1 : pixelAt img p.1 p.2 = COLOR_WALL
  · have h3 : pixelAt img p.1 p.2 ≠ COLOR_GOAL := by rw [h1]; decide
    simp [h1, h3, COLOR_WALL, COLOR_GOAL]
    exact (if_neg (by decide)).symm
  · by_cases h2 : pixelAt img p.1 p.2 = COLOR_START
    · have h3 : pixelAt img p.1 p.2 ≠ COLOR_GOAL := by rw [h2]; decide
      simp [h1, h2, h3, COLOR_WALL, COLOR_START, COLOR_GOAL]
    · by_cases h3 : pixelAt img p.1 p.2 = COLOR_GOAL
      · simp [h1, h2, h3, COLOR_WALL, COLOR_START, COLOR_GOAL]
      · simp [h1, h2, h3]

theorem foldl_scan_walls (img : Image) (ps : List (Nat × Nat)) (st : ScanState) :
    (ps.foldl (scanStep img) st).walls =
      st.walls ++ (ps.filter (fun p => isColorAt img p COLOR_WALL)).map toCellI := by
  induction ps generalizing st with
  | nil => simp
  | cons a rest ih =>
    simp only [List.foldl_cons, List.filter_cons]
    rw [ih, scanStep_walls]
    by_cases h : isColorAt img a COLOR_WALL
    · simp [h]
    · simp [h]

theorem foldl_scan_start (img : Image) (ps : List (Nat × Nat)) (st : ScanState) :
    (ps.foldl (scanStep img) st).start =
      Option.or (((ps.filter (fun p => isColorAt img p COLOR_START)).map toCellI).getLast?)
        st.start := by
  induction ps generalizing st with
  | nil => simp [Option.or]
  | cons a rest ih =>
    simp only [List.foldl_cons, List.filter_cons]
    rw [ih, scanStep_start]
    by_cases h : isColorAt img a COLOR_START
    · simp only [h, if_true, List.map_cons]
      exact getLast?_or_cons _ _ _
    · simp [h]

theorem foldl_scan_goal (img : Image) (ps : List (Nat × Nat)) (st : ScanState) :
    (ps.foldl (scanStep img) st).goal =
      Option.or (((ps.filter (fun p => isColorAt img p COLOR_GOAL)).map toCellI).getLast?)
        st.goal := by
  induction ps generalizing st with
  | nil => simp [Option.or]
  | cons a rest ih =>
    simp only [List.foldl_cons, List.filter_cons]
    rw [ih, scanStep_goal]
    by_cases h : isColorAt img a COLOR_GOAL
    · simp only [h, if_true, List.map_cons]
      exact getLast?_or_cons _ _ _
    · simp [h]

theorem scanImage_walls (img : Image) :
    (scanImage img).walls =
      ((scanOrder img.width img.height).filter (fun p => isColorAt img p COLOR_WALL)).map
        toCellI := by
  rw [scanImage, foldl_scan_walls]
  rfl

theorem scanImage_start (img : Image) :
    (scanImage img).start =
      (((scanOrder img.width img.height).filter (fun p => isColorAt img p COLOR_START)).map
        toCellI).getLast? := by
  rw [scanImage, foldl_scan_start]
  exact Option.or_none

theorem scanImage_goal (img : Image) :
    (scanImage img).goal =
      (((scanOrder img.width img.height).filter (fun p => isColorAt img p COLOR_GOAL)).map
        toCellI).getLast? := by
  rw [scanImage, foldl_scan_goal]
  exact Option.or_none

/-- C2: for every image, the decoder scans pixels in row-major order
and classifies each one only by exact RGB equality against the wall,
start and goal colors; the resulting wall list is exactly the
wall-colored pixels in scan order (all other colors are skipped, not
stored), and when several pixels match the start (resp. goal) color,
the descriptor records the last match in scan order, succeeding without
any duplicate error. -/
theorem decode_scan_spec (img : Image) (imageUrl : String) (s g : Nat × Nat)
    (hs : (((scanOrder img.width img.height).filter
        (fun p => isColorAt img p COLOR_START)).map toCellI).getLast? = some (toCellI s))
    (hg : (((scanOrder img.width img.height).filter
        (fun p => isColorAt img p COLOR_GOAL)).map toCellI).getLast? = some (toCellI g)) :
    parseMazeFromImage img imageUrl =
      Except.ok
        (MazeDescriptor.mk img.width img.height (toCellI s) (toCellI g)
          (((scanOrder img.width img.height).filter
            (fun p => isColorAt img p COLOR_WALL)).map toCellI)) := by
  rw [parseMazeFromImage]
  rw [scanImage_start, scanImage_goal, scanImage_walls, hs, hg]

/-- Witness for C2 on `imgTwo`, whose two blue pixels are duplicate
start markers: decode succeeds, the recorded start is the second blue
pixel (1, 0) of the row-major scan, the goal is the red pixel (0, 1)
and the wall list is exactly the black pixel (1, 1). -/
theorem decode_scan_spec_witness :
    parseMazeFromImage imgTwo ("maps/1.png") = Except.ok descTwo := by
  have h := decode_scan_spec imgTwo ("maps/1.png") (1, 0) (0, 1) (by decide) (by decide)
  exact h.trans (by rfl)


/-! ### Decoder invariants (C4, C5) -/

theorem mem_scan_filter_color (img : Image) (c : Nat × Nat × Nat) (q : Cell)
    (hq : q ∈ ((scanOrder img.width img.height).filter
      (fun p => isColorAt img p c)).map toCellI) :
    ∃ p0 : Nat × Nat, toCellI p0 = q ∧ pixelAt img p0.1 p0.2 = c := by
  obtain ⟨p0, hp0, hp0q⟩ := List.mem_map.mp hq
  refine ⟨p0, hp0q, ?_⟩
  have hmem := List.mem_filter.mp hp0
  simpa [isColorAt] using hmem.2

theorem decode_ok_fields (img : Image) (imageUrl : String) (d : MazeDescriptor)
    (h : parseMazeFromImage img imageUrl = Except.ok d) :
    (∃ s0 : Nat × Nat, toCellI s0 = d.start ∧ pixelAt img s0.1 s0.2 = COLOR_START) ∧
    (∃ g0 : Nat × Nat, toCellI g0 = d.goal ∧ pixelAt img g0.1 g0.2 = COLOR_GOAL) ∧
    d.walls = ((scanOrder img.width img.height).filter
      (fun p => isColorAt img p COLOR_WALL)).map toCellI := by
  rw [parseMazeFromImage] at h
  cases hs : (scanImage img).start with
  | none => rw [hs] at h; cases h
  | some s =>
    cases hg : (scanImage img).goal with
    | none => rw [hs, hg] at h; cases h
    | some g =>
      rw [hs, hg] at h
      injection h with h
      subst h
      refine ⟨?_, ?_, by rw [scanImage_walls]⟩
      · exact mem_scan_filter_color img COLOR_START s
          (getLast?_mem _ _ (by rw [← scanImage_start img]; exact hs))
      · exact mem_scan_filter_color img COLOR_GOAL g
          (getLast?_mem _ _ (by rw [← scanImage_goal img]; exact hg))

theorem decode_start_not_walls (img : Image) (imageUrl : String) (d : MazeDescriptor)
    (h : parseMazeFromImage img imageUrl = Except.ok d) : d.start ∉ d.walls := by
  obtain ⟨⟨s0, hs0q, hs0c⟩, _, hw⟩ := decode_ok_fields img imageUrl d h
  intro hmem
  rw [hw] at hmem
  obtain ⟨w0, hw0q, hw0c⟩ := mem_scan_filter_color img COLOR_WALL d.start hmem
  have hsw : w0 = s0 := toCellI_inj w0 s0 (hw0q.trans hs0q.symm)
  subst hsw
  rw [hw0c] at hs0c
  exact absurd hs0c (by decide)

theorem decode_goal_not_walls (img : Image) (imageUrl : String) (d : MazeDescriptor)
    (h : parseMazeFromImage img imageUrl = Except.ok d) : d.goal ∉ d.walls := by
  obtain ⟨_, ⟨g0, hg0q, hg0c⟩, hw⟩ := decode_ok_fields img imageUrl d h
  intro hmem
  rw [hw] at hmem
  obtain ⟨w0, hw0q, hw0c⟩ := mem_scan_filter_color img COLOR_WALL d.goal hmem
  have hgw : w0 = g0 := toCellI_inj w0 g0 (hw0q.trans hg0q.symm)
  subst hgw
  rw [hw0c] at hg0c
  exact absurd hg0c (by decide)

theorem decode_start_ne_goal (img : Image) (imageUrl : String) (d : MazeDescriptor)
    (h : parseMazeFromImage img imageUrl = Except.ok d) : d.start ≠ d.goal := by
  obtain ⟨⟨s0, hs0q, hs0c⟩, ⟨g0, hg0q, hg0c⟩, _⟩ := decode_ok_fields img imageUrl d h
  intro heq
  have hsg : s0 = g0 := toCellI_inj s0 g0 (by rw [hs0q, hg0q, heq])
  subst hsg
  rw [hs0c] at hg0c
  exact absurd hg0c (by decide)

/-- C4: every successfully decoded descriptor has its start cell and
goal cell outside the wall list, and distinct from each other — each
pixel is classified exactly once, and the three reserved colors are
pairwise distinct. -/
theorem decode_landmark_invariants (img : Image) (imageUrl : String) (d : MazeDescriptor)
    (h : parseMazeFromImage img imageUrl = Except.ok d) :
    d.start ∉ d.walls ∧ d.goal ∉ d.walls ∧ d.start ≠ d.goal :=
  ⟨decode_start_not_walls img imageUrl d h, decode_goal_not_walls img imageUrl d h,
    decode_start_ne_goal img imageUrl d h⟩

/-- Witness for C4 on the concrete image `imgTwo`. -/
theorem decode_landmark_invariants_witness :
    descTwo.start ∉ descTwo.walls ∧ descTwo.goal ∉ descTwo.walls ∧
      descTwo.start ≠ descTwo.goal :=
  decode_landmark_invariants imgTwo ("maps/1.png") descTwo (by rfl)

/-- C5 amended: when no pixel matched the start color, or no pixel
matched the goal color, decode rejects with the missing-landmark
error — whose message interpolates the source image identifier and
names both landmark colors (start and goal), without distinguishing
which one is absent — instead of resolving a descriptor. -/
theorem decode_missing_landmark (img : Image) (imageUrl : String)
    (h : ((scanOrder img.width img.height).filter
        (fun p => isColorAt img p COLOR_START)) = [] ∨
      ((scanOrder img.width img.height).filter
        (fun p => isColorAt img p COLOR_GOAL)) = []) :
    parseMazeFromImage img imageUrl = Except.error (missingLandmarkMessage imageUrl) := by
  cases hs : (scanImage img).start with
  | none => rw [parseMazeFromImage, hs]
  | some s =>
    cases hg : (scanImage img).goal with
    | none => rw [parseMazeFromImage, hs, hg]
    | some g =>
      exfalso
      rcases h with h | h
      · rw [scanImage_start img, h] at hs
        cases hs
      · rw [scanImage_goal img, h] at hg
        cases hg

/-- Witness for C5 on `imgOnlyGoal`, an image with no blue pixel. -/
theorem decode_missing_landmark_witness :
    parseMazeFromImage imgOnlyGoal ("maps/1.png") =
      Except.error (missingLandmarkMessage ("maps/1.png")) :=
  decode_missing_landmark imgOnlyGoal ("maps/1.png") (Or.inl (by decide))

/-- Counterexample to C5 as frozen: the decoder raises the very same
error value when only the start is missing (`imgOnlyGoal`) as when
only the goal is missing (`imgOnlyStart`), so the error cannot be
naming which landmark is absent. -/
theorem decode_missing_landmark_cex :
    parseMazeFromImage imgOnlyGoal ("maps/1.png") =
      parseMazeFromImage imgOnlyStart ("maps/1.png") ∧
    parseMazeFromImage imgOnlyStart ("maps/1.png") =
      Except.error (missingLandmarkMessage ("maps/1.png")) := by
  exact ⟨rfl, rfl⟩


/-! ### Player movement (C3, C9, C10) -/

theorem setAdd_mem_self (s : List Cell) (c : Cell) : c ∈ setAdd s c := by
  rw [setAdd]
  split_ifs with h
  · exact h
  · simp

theorem mem_setAdd (s : List Cell) (a c : Cell) : c ∈ setAdd s a ↔ c ∈ s ∨ c = a := by
  rw [setAdd]
  split_ifs with h
  · constructor
    · exact Or.inl
    · rintro (hc | rfl)
      · exact hc
      · exact h
  · simp

theorem mem_setOfList (l : List Cell) (c : Cell) : c ∈ setOfList l ↔ c ∈ l := by
  rw [setOfList]
  suffices hgen : ∀ acc : List Cell, c ∈ l.foldl setAdd acc ↔ c ∈ acc ∨ c ∈ l by
    simpa using hgen []
  induction l with
  | nil => simp
  | cons a rest ih =>
    intro acc
    rw [List.foldl_cons, ih (setAdd acc a), mem_setAdd]
    simp only [List.mem_cons]
    tauto

/-- C3: a move whose candidate cell is not in the wall set commits —
the position becomes the candidate, the candidate enters the visited
set, and the call reports true; a move into a wall reports false and
leaves the whole player state untouched, so any number of repeated
calls into the same wall leaves position and visited set unchanged. -/
theorem move_spec (p : Player) (dx dy : Int) (m : Maze) :
    ((p.x + dx, p.y + dy) ∉ m.walls →
      p.move dx dy m =
        (Player.mk (p.x + dx) (p.y + dy) (setAdd p.visitedCells (p.x + dx, p.y + dy)),
          true) ∧
      (p.x + dx, p.y + dy) ∈ (p.move dx dy m).1.visitedCells) ∧
    ((p.x + dx, p.y + dy) ∈ m.walls →
      p.move dx dy m = (p, false) ∧
      ∀ n : Nat, (fun q : Player => (q.move dx dy m).1)^[n] p = p) := by
  constructor
  · intro hnw
    have hw : m.isWall (p.x + dx) (p.y + dy) = false := by
      simp [Maze.isWall, hnw]
    have hmove : p.move dx dy m =
        (Player.mk (p.x + dx) (p.y + dy) (setAdd p.visitedCells (p.x + dx, p.y + dy)),
          true) := by
      simp [Player.move, hw, Player.markVisited]
    refine ⟨hmove, ?_⟩
    rw [hmove]
    exact setAdd_mem_self _ _
  · intro hwall
    have hw : m.isWall (p.x + dx) (p.y + dy) = true := by
      simp [Maze.isWall, hwall]
    have hmove : p.move dx dy m = (p, false) := by
      simp [Player.move, hw]
    refine ⟨hmove, ?_⟩
    intro n
    exact Function.iterate_fixed (by rw [hmove]) n

/-- Witness for C3 on the 3×3 maze with a wall at (0, 1): from (1, 1)
the move right commits to (2, 1) and the move left into the wall is
rejected with the state unchanged. -/
theorem move_spec_witness :
    playerSmall.move 1 0 mazeSmall =
      (Player.mk 2 1 (setAdd playerSmall.visitedCells (2, 1)), true) ∧
    playerSmall.move (-1) 0 mazeSmall = (playerSmall, false) :=
  ⟨((move_spec playerSmall 1 0 mazeSmall).1 (by decide)).1,
    ((move_spec playerSmall (-1) 0 mazeSmall).2 (by decide)).1⟩

/-- C9: `isWall` is pure wall-set membership, so an out-of-bounds
coordinate pair outside the wall set is reported as not a wall, and a
move whose candidate is such a pair succeeds, committing the
out-of-bounds position — `move` checks only wall membership, never
bounds. -/
theorem isWall_out_of_bounds_move (m : Maze) (p : Player) (dx dy : Int)
    (_hout : p.x + dx < 0 ∨ (m.width : Int) ≤ p.x + dx ∨
      p.y + dy < 0 ∨ (m.height : Int) ≤ p.y + dy)
    (hnw : (p.x + dx, p.y + dy) ∉ m.walls) :
    m.isWall (p.x + dx) (p.y + dy) = false ∧
    p.move dx dy m =
      (Player.mk (p.x + dx) (p.y + dy) (setAdd p.visitedCells (p.x + dx, p.y + dy)),
        true) := by
  have hw : m.isWall (p.x + dx) (p.y + dy) = false := by
    simp [Maze.isWall, hnw]
  exact ⟨hw, by simp [Player.move, hw, Player.markVisited]⟩

/-- Witness for C9: from (0, 0) in the 3×3 maze, moving left commits
the out-of-bounds position (-1, 0). -/
theorem isWall_out_of_bounds_move_witness :
    mazeSmall.isWall (-1) 0 = false ∧
    (Player.new 0 0).move (-1) 0 mazeSmall =
      (Player.mk (-1) 0 (setAdd (Player.new 0 0).visitedCells (-1, 0)), true) := by
  have h := isWall_out_of_bounds_move mazeSmall (Player.new 0 0) (-1) 0 (by decide) (by decide)
  exact ⟨by simpa [Player.new, Player.markVisited] using h.1, h.2.trans (by decide)⟩

theorem move_preserves_not_wall (m : Maze) (p : Player) (dx dy : Int)
    (h : m.isWall p.x p.y = false) :
    m.isWall (p.move dx dy m).1.x (p.move dx dy m).1.y = false := by
  rw [Player.move]
  cases hw : m.isWall (p.x + dx) (p.y + dy) with
  | true => simpa [hw] using h
  | false => simp [hw, Player.markVisited]

theorem applyMoves_not_wall (m : Maze) (p : Player) (ms : List (Int × Int))
    (h : m.isWall p.x p.y = false) :
    m.isWall (applyMoves m p ms).x (applyMoves m p ms).y = false := by
  induction ms generalizing p with
  | nil => simpa [applyMoves] using h
  | cons d rest ih =>
    have hstep := move_preserves_not_wall m p d.1 d.2 h
    rw [applyMoves, List.foldl_cons]
    exact ih ((p.move d.1 d.2 m).1) hstep

/-- C10: a player constructed at the start cell of a decoded maze is
never positioned on a wall cell, whatever sequence of moves is
applied — the decoded start is not a wall, and a move commits only
candidates outside the wall set. -/
theorem position_never_wall (img : Image) (imageUrl : String) (d : MazeDescriptor)
    (ms : List (Int × Int)) (h : parseMazeFromImage img imageUrl = Except.ok d) :
    (Maze.ofDescriptor d).isWall
      (applyMoves (Maze.ofDescriptor d) (Player.new d.start.1 d.start.2) ms).x
      (applyMoves (Maze.ofDescriptor d) (Player.new d.start.1 d.start.2) ms).y = false := by
  apply applyMoves_not_wall
  have hnw : d.start ∉ d.walls := decode_start_not_walls img imageUrl d h
  have hx : (Player.new d.start.1 d.start.2).x = d.start.1 := rfl
  have hy : (Player.new d.start.1 d.start.2).y = d.start.2 := rfl
  rw [hx, hy, Maze.ofDescriptor, Maze.isWall]
  simp only [decide_eq_false_iff_not, mem_setOfList]
  simpa using hnw

/-- Witness for C10 on `imgTwo` with the single move left from the
start (1, 0) to (0, 0). -/
theorem position_never_wall_witness :
    (Maze.ofDescriptor descTwo).isWall
      (applyMoves (Maze.ofDescriptor descTwo)
        (Player.new descTwo.start.1 descTwo.start.2) [(-1, 0)]).x
      (applyMoves (Maze.ofDescriptor descTwo)
        (Player.new descTwo.start.1 descTwo.start.2) [(-1, 0)]).y = false :=
  position_never_wall imgTwo ("maps/1.png") descTwo [(-1, 0)] (by rfl)


/-! ### Progress persistence round trip (C6) -/

theorem foldl_setAdd_of_nodup (l acc : List Cell) (h : (acc ++ l).Nodup) :
    l.foldl setAdd acc = acc ++ l := by
  induction l generalizing acc with
  | nil => simp
  | cons c rest ih =>
    rw [List.foldl_cons]
    have hc : c ∉ acc := by
      intro hc
      rw [List.nodup_append] at h
      exact h.2.2 hc (List.mem_cons_self c rest)
    rw [setAdd, if_neg hc, ih (acc ++ [c]) (by simpa using h)]
    simp

/-- C6: storing a completed level's visited set as the path array and
reading it back through `getCompletedPath` reconstructs a set equal to
the original (a visited set is duplicate-free by construction, which
is the `Nodup` hypothesis). -/
theorem path_roundtrip (progress : Nat → Option LevelProgress) (level : Nat)
    (pathSet : List Cell) (h : pathSet.Nodup) :
    GameState.getCompletedPath (GameState.completeLevel progress level pathSet) level =
      pathSet := by
  have hif : GameState.completeLevel progress level pathSet level =
      some (LevelProgress.mk true pathSet) := by
    rw [GameState.completeLevel]
    exact if_pos rfl
  rw [GameState.getCompletedPath, hif]
  show setOfList pathSet = pathSet
  rw [setOfList]
  exact (foldl_setAdd_of_nodup pathSet [] (by simpa using h)).trans (by simp)

/-- Witness for C6 on a concrete two-cell path. -/
theorem path_roundtrip_witness :
    GameState.getCompletedPath
      (GameState.completeLevel (fun _ => none) 3
        [((1 : Int), (1 : Int)), ((2 : Int), (1 : Int))]) 3 =
      [((1 : Int), (1 : Int)), ((2 : Int), (1 : Int))] :=
  path_roundtrip (fun _ => none) 3 [((1 : Int), (1 : Int)), ((2 : Int), (1 : Int))]
    (by decide)

/-! ### Level-load failure atomicity (C7) -/

/-- C7: when a level-load attempt fails (the awaited decode rejects,
with an empty cache entry for that level), `startLevel` leaves the
previous maze, player and decode cache exactly as they were and ends
on the level-select screen; the error is consumed inside the function
(its total return type is the next state, never an exception). -/
theorem startLevel_failure_atomic (g : MazeGame) (level : Nat) (e : String)
    (h1 : 1 ≤ level) (h2 : level ≤ g.maxLevel) (hcache : g.parsedMazes level = none) :
    (g.startLevel level (Except.error e)).maze = g.maze ∧
    (g.startLevel level (Except.error e)).player = g.player ∧
    (∀ l, (g.startLevel level (Except.error e)).parsedMazes l = g.parsedMazes l) ∧
    (g.startLevel level (Except.error e)).currentScreen = "level-select" := by
  rw [MazeGame.startLevel]
  rw [if_neg (by omega)]
  simp only [hcache, MazeGame.showLevelSelect, MazeGame.showScreen]
  rw [if_neg (by omega)]
  exact ⟨rfl, rfl, fun l => rfl, rfl⟩

/-- Witness for C7 from the concrete initial controller state. -/
theorem startLevel_failure_atomic_witness :
    (gameInit.startLevel 1 (Except.error ("boom"))).maze = none ∧
    (gameInit.startLevel 1 (Except.error ("boom"))).player = none ∧
    (gameInit.startLevel 1 (Except.error ("boom"))).parsedMazes 1 = none ∧
    (gameInit.startLevel 1 (Except.error ("boom"))).currentScreen = "level-select" := by
  obtain ⟨hm, hp, hpm, hs⟩ :=
    startLevel_failure_atomic gameInit 1 ("boom") (by decide) (by decide) rfl
  exact ⟨hm, hp, hpm 1, hs⟩


/-! ### Camera window (C1) -/

/-- C1 amended: in the camera-follow case (width or height above the
visible budget), with the player in bounds, the player's cell always
lies inside the returned window on both axes; the window origin of an
axis is clamped into [0, axisSize − MAX_VISIBLE_CELLS] whenever that
axis is at least MAX_VISIBLE_CELLS wide, but on an axis smaller than
the budget the origin equals axisSize − MAX_VISIBLE_CELLS, which is
negative — the `Math.min` clamp runs after the `Math.max` clamp and
pulls the origin below zero. -/
theorem camera_window_spec (W H : Nat) (px py : Int)
    (_hcam : ¬ (W ≤ MAX_VISIBLE_CELLS ∧ H ≤ MAX_VISIBLE_CELLS))
    (hx0 : 0 ≤ px) (hx1 : px < (W : Int)) (hy0 : 0 ≤ py) (hy1 : py < (H : Int)) :
    (viewPortStart px W ≤ px ∧
      px ≤ viewPortStart px W + (MAX_VISIBLE_CELLS : Int) - 1) ∧
    (viewPortStart py H ≤ py ∧
      py ≤ viewPortStart py H + (MAX_VISIBLE_CELLS : Int) - 1) ∧
    (MAX_VISIBLE_CELLS ≤ W →
      0 ≤ viewPortStart px W ∧
      viewPortStart px W ≤ (W : Int) - (MAX_VISIBLE_CELLS : Int)) ∧
    (MAX_VISIBLE_CELLS ≤ H →
      0 ≤ viewPortStart py H ∧
      viewPortStart py H ≤ (H : Int) - (MAX_VISIBLE_CELLS : Int)) ∧
    (W < MAX_VISIBLE_CELLS →
      viewPortStart px W = (W : Int) - (MAX_VISIBLE_CELLS : Int)) ∧
    (H < MAX_VISIBLE_CELLS →
      viewPortStart py H = (H : Int) - (MAX_VISIBLE_CELLS : Int)) := by
  simp only [viewPortStart, HALF_VIEW, MAX_VISIBLE_CELLS] at *
  omega

/-- Witness for C1 on the 30×10 maze with the player at (5, 3): the
X axis (which exceeds the budget) has its origin clamped into
[0, 30 − 25]. -/
theorem camera_window_spec_witness :
    0 ≤ viewPortStart 5 30 ∧
      viewPortStart 5 30 ≤ (30 : Int) - (MAX_VISIBLE_CELLS : Int) :=
  (camera_window_spec 30 10 5 3 (by decide) (by decide) (by decide) (by decide)
    (by decide)).2.2.1 (by decide)

/-- Counterexample to C1 as frozen: the 30×10 maze is camera-followed
(its width exceeds MAX_VISIBLE_CELLS) and the player cell (0, 0) is in
bounds, yet the Y-axis window origin is 10 − 25 = −15, which is
negative. -/
theorem camera_window_negative_origin_cex :
    ¬ (30 ≤ MAX_VISIBLE_CELLS ∧ 10 ≤ MAX_VISIBLE_CELLS) ∧
    (0 : Int) ≤ 0 ∧ (0 : Int) < (30 : Int) ∧ (0 : Int) ≤ 0 ∧ (0 : Int) < (10 : Int) ∧
    viewPortStart 0 10 < 0 := by
  decide

/-! ### Main-view draw predicate (C8) -/

theorem mem_renderRange (s e z : Int) : z ∈ renderRange s e ↔ s ≤ z ∧ z ≤ e := by
  rw [renderRange, List.mem_map]
  constructor
  · rintro ⟨i, hi, rfl⟩
    rw [List.mem_range] at hi
    show s ≤ s + Int.ofNat i ∧ s + Int.ofNat i ≤ e
    simp only [Int.ofNat_eq_natCast]
    omega
  · intro hz
    refine ⟨(z - s).toNat, ?_, ?_⟩
    · rw [List.mem_range]
      omega
    · show s + Int.ofNat (z - s).toNat = z
      simp only [Int.ofNat_eq_natCast]
      omega

/-- C8 amended: in the main-view render a cell is drawn exactly when
it lies inside the computed viewport window, inside the maze bounds,
and either within the 3×3 spotlight around the player (Chebyshev
distance at most viewRange = 1) or in the player's visited set —
nothing else (no line of sight) enters the predicate.  In particular
cells that are neither in the spotlight nor visited are never drawn;
but a visited cell outside the camera window is not drawn either,
which is what the frozen claim misses. -/
theorem drawn_iff_window_spotlight_or_visited (m : Maze) (p : Player) (x y : Int) :
    (x, y) ∈ drawnCells m p ↔
      ((mazeWindow m p).1.1 ≤ x ∧ x ≤ (mazeWindow m p).1.2 ∧
       (mazeWindow m p).2.1 ≤ y ∧ y ≤ (mazeWindow m p).2.2 ∧
       0 ≤ x ∧ x < (m.width : Int) ∧ 0 ≤ y ∧ y < (m.height : Int) ∧
       (max (x - p.x).natAbs (y - p.y).natAbs ≤ viewRange ∨ (x, y) ∈ p.visitedCells)) := by
  rw [drawnCells]
  simp only [List.mem_flatMap, List.mem_filterMap, mem_renderRange]
  constructor
  · rintro ⟨y0, hy0, x0, hx0, hf⟩
    by_cases hb : x0 < 0 ∨ (m.width : Int) ≤ x0 ∨ y0 < 0 ∨ (m.height : Int) ≤ y0
    · rw [if_pos hb] at hf
      cases hf
    · rw [if_neg hb] at hf
      by_cases hv : (isInView p x0 y0 || p.hasVisited x0 y0) = true
      · rw [if_pos hv] at hf
        have hxy : x0 = x ∧ y0 = y := by
          have := Option.some.inj hf
          exact ⟨congrArg Prod.fst this, congrArg Prod.snd this⟩
        obtain ⟨rfl, rfl⟩ := hxy
        refine ⟨hx0.1, hx0.2, hy0.1, hy0.2, by omega, by omega, by omega, by omega, ?_⟩
        simp only [Bool.or_eq_true, isInView, Bool.and_eq_true, decide_eq_true_eq,
          Player.hasVisited] at hv
        rcases hv with ⟨hvx, hvy⟩ | hvis
        · exact Or.inl (Nat.max_le.mpr ⟨hvx, hvy⟩)
        · exact Or.inr hvis
      · rw [if_neg hv] at hf
        cases hf
  · rintro ⟨hwx1, hwx2, hwy1, hwy2, hx0, hx1, hy0, hy1, hvis⟩
    refine ⟨y, ⟨hwy1, hwy2⟩, x, ⟨hwx1, hwx2⟩, ?_⟩
    rw [if_neg (by omega)]
    rw [if_pos ?_]
    simp only [Bool.or_eq_true, isInView, Bool.and_eq_true, decide_eq_true_eq,
      Player.hasVisited]
    rcases hvis with hcheb | hmem
    · exact Or.inl ⟨le_trans (Nat.le_max_left _ _) hcheb, le_trans (Nat.le_max_right _ _) hcheb⟩
    · exact Or.inr hmem

/-- Counterexample to C8 as frozen on the camera-followed 26×1 maze:
the cell (0, 0) is in the player's visited set, yet the window origin
on the X axis is 1, so (0, 0) is outside the window and is not
drawn. -/
theorem drawn_visited_outside_window_cex :
    ((0 : Int), (0 : Int)) ∈ playerCex.visitedCells ∧
    ((0 : Int), (0 : Int)) ∉ drawnCells mazeCex playerCex := by
  constructor
  · decide
  · decide

end Labyrinth
